import Mathlib

/-!
Shallow embedding of the NAS-stream backend (`src/backend/app.py`):
the media scanner (`scan_files`, `stable_id_for_path`), the transcode
session manager (`ensure_hls_running`, `stop_stream`), and the shared
process-wide state (`FILES` index, `PROCS` table, `SCAN_STATUS`).

Python `dict`s are modelled as association lists that preserve insertion
order: `dictInsert` updates an existing key in place (keeping its
position, as CPython dicts do) and appends a new key at the end;
`dictPop` removes a key; `dictGet` is `dict.get`.

External effects (the filesystem tree seen by `rglob`, `ffprobe`
outcomes, the md5 digest, clock readings, and the outcome of
`subprocess.Popen`) are supplied as data in an environment/state record,
so every function is executable and the control flow of the Python code
is mirrored branch for branch.
-/

namespace NasStream

/-- Descriptor parsed from the prober output (`ffprobe_video_info`):
each field is `s.get(...)` on the first video stream, hence optional. -/
structure ProbeInfo where
  codec : Option String
  profile : Option String
  pix_fmt : Option String
  width : Option Nat
  height : Option Nat
  r_frame_rate : Option String
deriving Repr, DecidableEq

/-- One filesystem path as visited by `MEDIA_ROOT.rglob("*")`, together
with the externally determined data the scan reads about it: `p.name`,
`p.is_file()`, `p.suffix`, `p.stat()` size and mtime, and the outcome of
running `ffprobe_video_info` on it (`Except.error msg` models the raised
exception, carrying its rendered message). -/
structure FsEntry where
  path : String
  name : String
  isFile : Bool
  suffix : String
  size : Nat
  mtime : Nat
  probe : Except String ProbeInfo
deriving Repr

/-- The record dict built in `scan_files` for one accepted file. -/
structure MediaRecord where
  id : String
  path : String
  name : String
  codec : Option String
  profile : Option String
  pix_fmt : Option String
  width : Option Nat
  height : Option Nat
  r_frame_rate : Option String
deriving Repr, DecidableEq

/-- The `FILES` index: insertion-ordered mapping id -> record. -/
abbrev Index := List (String × MediaRecord)

/-- `dict.get(k)`. -/
def dictGet {β : Type} (l : List (String × β)) (k : String) : Option β :=
  match l with
  | [] => none
  | (k₁, v₁) :: rest => if k₁ = k then some v₁ else dictGet rest k

/-- `d[k] = v` on a CPython dict: update in place if the key is present
(keeping its position), otherwise append at the end. -/
def dictInsert {β : Type} (l : List (String × β)) (k : String) (v : β) :
    List (String × β) :=
  match l with
  | [] => [(k, v)]
  | (k₁, v₁) :: rest =>
      if k₁ = k then (k, v) :: rest else (k₁, v₁) :: dictInsert rest k v

/-- `d.pop(k, None)`: remove the key if present. -/
def dictPop {β : Type} (l : List (String × β)) (k : String) :
    List (String × β) :=
  l.filter (fun kv => kv.1 ≠ k)

/-- The keys of an association list, in order. -/
def dictKeys {β : Type} (l : List (String × β)) : List String :=
  l.map Prod.fst

/-- Number of entries stored under key `k`. -/
def countKey {β : Type} (l : List (String × β)) (k : String) : Nat :=
  (l.filter (fun kv => kv.1 = k)).length

/-- `SCAN_EXTS` from the config section. -/
def SCAN_EXTS : List String :=
  [".mkv", ".mp4", ".webm", ".mov", ".avi", ".m4v"]

/-- ASCII lowercasing of one character (`str.lower` restricted to the
ASCII range; every extension and sort key compared in the source is
ASCII). -/
def lowerChar (c : Char) : Char :=
  if 65 ≤ c.toNat ∧ c.toNat ≤ 90 then Char.ofNat (c.toNat + 32) else c

/-- `str.lower()` (ASCII range). -/
def lowerString (s : String) : String :=
  ⟨s.data.map lowerChar⟩

/-- `s[:n]` on a string. -/
def takeString (s : String) (n : Nat) : String :=
  ⟨s.data.take n⟩

/-- Environment of one `scan_files` invocation: whether `MEDIA_ROOT`
exists, the `rglob` traversal as an ordered list of entries, the md5
hex-digest function used by `stable_id_for_path`, and the clock readings
taken during the scan (`tStart` at status initialisation, `tFinish` at
the end, error or success). -/
structure ScanEnv where
  rootExists : Bool
  mediaRoot : String
  entries : List FsEntry
  hash : String → String
  tStart : Int
  tFinish : Int

/-- `stable_id_for_path`: md5 of `f"{p}|{st.st_size}|{int(st.st_mtime)}"`,
truncated to 12 hex characters. -/
def stable_id_for_path (env : ScanEnv) (e : FsEntry) : String :=
  takeString (env.hash (e.path ++ "|" ++ toString e.size ++ "|" ++ toString e.mtime)) 12

/-- The `SCAN_STATUS` dict. -/
structure ScanStatus where
  state : String
  started_at : Option Int
  finished_at : Option Int
  duration_s : Option Int
  media_root : String
  scanned_paths : Nat
  file_candidates : Nat
  accepted_media : Nat
  indexed : Nat
  ffprobe_ok : Nat
  ffprobe_failed : Nat
  last_path : Option String
  last_error : Option String
  codec_counts : List (String × Nat)
deriving Repr, DecidableEq

/-- `SCAN_STATUS.update({...})` at the top of `scan_files`: every field
is overwritten, so the result does not depend on the previous status. -/
def initStatus (env : ScanEnv) (prev : ScanStatus) : ScanStatus :=
  { prev with
    state := "scanning"
    started_at := some env.tStart
    finished_at := none
    duration_s := none
    media_root := env.mediaRoot
    scanned_paths := 0
    file_candidates := 0
    accepted_media := 0
    indexed := 0
    ffprobe_ok := 0
    ffprobe_failed := 0
    last_path := none
    last_error := none
    codec_counts := [] }

/-- The record built for an accepted file.  On probe success the fields
come from the descriptor (`info.get("codec", "unknown")` returns the
stored value — possibly `None` — because the key is always present); on
probe failure `info = {"codec": "unknown", "error": str(e)}`, so codec is
`"unknown"` and all other descriptor fields are absent. -/
def mkRecord (env : ScanEnv) (e : FsEntry) : MediaRecord :=
  let file_id := stable_id_for_path env e
  match e.probe with
  | Except.ok info =>
      { id := file_id, path := e.path, name := e.name
        codec := info.codec, profile := info.profile, pix_fmt := info.pix_fmt
        width := info.width, height := info.height
        r_frame_rate := info.r_frame_rate }
  | Except.error _ =>
      { id := file_id, path := e.path, name := e.name
        codec := some "unknown", profile := none, pix_fmt := none
        width := none, height := none, r_frame_rate := none }

/-- A file is accepted when it is a regular file and its lowercased
suffix is in `SCAN_EXTS`. -/
def accepted (e : FsEntry) : Bool :=
  e.isFile && SCAN_EXTS.contains (lowerString e.suffix)

/-- The loop-local accumulation of `scan_files`: the working map `found`
plus the counters mirrored into `SCAN_STATUS` as the loop runs. -/
structure ScanAcc where
  found : Index
  scanned_paths : Nat
  file_candidates : Nat
  accepted_media : Nat
  ffprobe_ok : Nat
  ffprobe_failed : Nat
  indexed : Nat
  last_path : Option String
  last_error : Option String

def initAcc : ScanAcc :=
  { found := [], scanned_paths := 0, file_candidates := 0
    accepted_media := 0, ffprobe_ok := 0, ffprobe_failed := 0
    indexed := 0, last_path := none, last_error := none }

/-- One iteration of the `for p in MEDIA_ROOT.rglob("*")` loop. -/
def scanStep (env : ScanEnv) (acc : ScanAcc) (e : FsEntry) : ScanAcc :=
  let acc := { acc with scanned_paths := acc.scanned_paths + 1
                        last_path := some e.path }
  if !e.isFile then acc
  else
    let acc := { acc with file_candidates := acc.file_candidates + 1 }
    if !SCAN_EXTS.contains (lowerString e.suffix) then acc
    else
      let acc := { acc with accepted_media := acc.accepted_media + 1 }
      let file_id := stable_id_for_path env e
      let acc :=
        match e.probe with
        | Except.ok _ => { acc with ffprobe_ok := acc.ffprobe_ok + 1 }
        | Except.error msg =>
            { acc with ffprobe_failed := acc.ffprobe_failed + 1
                       last_error := some msg }
      { acc with found := dictInsert acc.found file_id (mkRecord env e)
                 indexed := acc.indexed + 1 }

/-- Sort key of the final `sorted(...)` call:
`((kv[1].get("codec") or ""), kv[1]["name"].lower())`. -/
def sortKey (kv : String × MediaRecord) : String × String :=
  (kv.2.codec.getD "", lowerString kv.2.name)

/-- Python tuple comparison on the sort keys: lexicographic `≤`. -/
def keyLE (a b : String × MediaRecord) : Bool :=
  decide ((sortKey a).1 < (sortKey b).1) ||
    (decide ((sortKey a).1 = (sortKey b).1) &&
      decide ((sortKey a).2 ≤ (sortKey b).2))

/-- `dict(sorted(found.items(), key=...))`: Python `sorted` is a stable
sort; `List.mergeSort` is the stable sort of the Lean library. -/
def sortIndex (found : Index) : Index :=
  found.mergeSort keyLE

/-- `v.get("codec") or "unknown"` for the histogram: falsy codec values
(absent or empty) become "unknown". -/
def codecName (r : MediaRecord) : String :=
  match r.codec with
  | none => "unknown"
  | some c => if c = "" then "unknown" else c

/-- Histogram `codec -> count` over the final index, then
`dict(sorted(codec_counts.items(), key=lambda x: x[0]))`. -/
def codecCountsSorted (files : Index) : List (String × Nat) :=
  (files.foldl
      (fun m kv =>
        let c := codecName kv.2
        dictInsert m c ((dictGet m c).getD 0 + 1))
      []).mergeSort (fun a b => decide (a.1 ≤ b.1))

/-- Result of one `scan_files` call.  `filesWrites` is the trace of
assignments to the module-global `FILES` performed by the call, in
order: the source assigns `FILES` exactly once, after the traversal, and
not at all on the missing-root path.  `scanError` models the raised
`RuntimeError`. -/
structure ScanResult where
  status : ScanStatus
  filesWrites : List Index
  scanError : Option String

/-- The accumulator after the whole traversal. -/
def scanAccOf (env : ScanEnv) : ScanAcc :=
  env.entries.foldl (scanStep env) initAcc

/-- The working map after the whole traversal. -/
def scanFound (env : ScanEnv) : Index :=
  (scanAccOf env).found

/-- The index published by a successful scan. -/
def scanIndex (env : ScanEnv) : Index :=
  sortIndex (scanFound env)

/-- `scan_files`, as a function of the scan environment and the previous
`SCAN_STATUS` value. -/
def scan_files (env : ScanEnv) (prev : ScanStatus) : ScanResult :=
  let st₀ := initStatus env prev
  if !env.rootExists then
    let msg := "MEDIA_ROOT does not exist: " ++ env.mediaRoot
    { status :=
        { st₀ with
          state := "error"
          finished_at := some env.tFinish
          duration_s := some (env.tFinish - env.tStart)
          last_error := some msg }
      filesWrites := []
      scanError := some msg }
  else
    let acc := env.entries.foldl (scanStep env) initAcc
    let files := sortIndex acc.found
    { status :=
        { st₀ with
          state := "done"
          scanned_paths := acc.scanned_paths
          file_candidates := acc.file_candidates
          accepted_media := acc.accepted_media
          indexed := acc.indexed
          ffprobe_ok := acc.ffprobe_ok
          ffprobe_failed := acc.ffprobe_failed
          last_path := acc.last_path
          last_error := acc.last_error
          finished_at := some env.tFinish
          duration_s := some (env.tFinish - env.tStart)
          codec_counts := codecCountsSorted files }
      filesWrites := [files]
      scanError := none }

/-- The value of `FILES` after a scan call: the last write, or the
previous value when the call wrote nothing. -/
def finalFiles (r : ScanResult) (prevFiles : Index) : Index :=
  r.filesWrites.getLastD prevFiles

/-- Predicate: `e` is an accepted file whose identifier is `i`. -/
def matchesId (env : ScanEnv) (i : String) (e : FsEntry) : Bool :=
  accepted e && decide (stable_id_for_path env e = i)

/-- The last entry of the traversal that is accepted and carries
identifier `i` — the final writer under last-write-wins. -/
def lastAcceptedWith (env : ScanEnv) (es : List FsEntry) (i : String) :
    Option FsEntry :=
  es.reverse.find? (matchesId env i)

/-! ### Transcode session manager -/

/-- A tracked `subprocess.Popen` handle in `PROCS`: its pid and whether
`poll()` currently returns `None` (process still running). -/
structure ProcHandle where
  pid : Nat
  alive : Bool
deriving Repr, DecidableEq

/-- The process-wide state read and written by `ensure_hls_running` and
`stop_stream`, together with the external facts they consult: `FILES`,
`PROCS`, the set of source paths existing on disk, the set of ids whose
`HLS_ROOT/{id}` output directory exists, the playlist mtime per id
(present iff `HLS_ROOT/{id}/index.m3u8` exists), the current clock
reading, the outcome the OS would give to `subprocess.Popen`
(`none` models the raised exception), and the outcome the OS would give
to `shutil.rmtree(out_dir, ignore_errors=True)` (`rmtreeOk = true`:
the recursive deletion fully succeeds; `rmtreeOk = false`: it fails and,
with the errors swallowed, the directory survives the call). -/
structure SysState where
  files : Index
  procs : List (String × ProcHandle)
  srcExists : List String
  hlsDirs : List String
  playlistMTime : List (String × Int)
  now : Int
  spawnResult : Option ProcHandle
  rmtreeOk : Bool
deriving Repr, DecidableEq

/-- Observable side effects of one `ensure_hls_running` call:
whether `out_dir.mkdir` ran, whether the `PROCS` table was read or
written (the `with PROCS_LOCK` block was entered), whether the stale
output cleanup loop ran, and how many `subprocess.Popen` calls were
attempted. -/
structure EnsureEff where
  mkdirCalled : Bool
  procsAccessed : Bool
  cleaned : Bool
  spawnAttempts : Nat
deriving Repr, DecidableEq

/-- Result of one `ensure_hls_running` call: the returned URL, a raised
`HTTPException(status, detail)`, or the re-raised `Popen` failure; each
outcome carries the state left behind and the effects performed. -/
inductive EnsureResult where
  | ok (hls_url : String) (st : SysState) (eff : EnsureEff)
  | httpError (status : Nat) (detail : String) (st : SysState) (eff : EnsureEff)
  | spawnError (st : SysState) (eff : EnsureEff)
deriving Repr, DecidableEq

/-- The URL returned for a file id: `f"/hls/{file_id}/index.m3u8"`. -/
def hlsUrl (file_id : String) : String :=
  "/hls/" ++ file_id ++ "/index.m3u8"

/-- The body of the `with PROCS_LOCK` block after the launch decision:
clean the output directory (deleting every file in it, the playlist
included), spawn ffmpeg, and on success record the handle in `PROCS`. -/
def launchNew (st : SysState) (file_id : String) (eff : EnsureEff) :
    EnsureResult :=
  let st := { st with playlistMTime := dictPop st.playlistMTime file_id }
  let eff := { eff with cleaned := true, spawnAttempts := eff.spawnAttempts + 1 }
  match st.spawnResult with
  | none => EnsureResult.spawnError st eff
  | some p =>
      EnsureResult.ok (hlsUrl file_id)
        { st with procs := dictInsert st.procs file_id p } eff

/-- The `with PROCS_LOCK` block: re-check for a live tracked process,
else own the launch. -/
def ensureLaunch (st : SysState) (file_id : String) (eff : EnsureEff) :
    EnsureResult :=
  let eff := { eff with procsAccessed := true }
  match dictGet st.procs file_id with
  | some p =>
      if p.alive then EnsureResult.ok (hlsUrl file_id) st eff
      else launchNew st file_id eff
  | none => launchNew st file_id eff

/-- `ensure_hls_running`. -/
def ensure_hls_running (st : SysState) (file_id : String) : EnsureResult :=
  let eff₀ : EnsureEff :=
    { mkdirCalled := false, procsAccessed := false, cleaned := false
      spawnAttempts := 0 }
  match dictGet st.files file_id with
  | none => EnsureResult.httpError 404 "Unknown file id" st eff₀
  | some r =>
      if !st.srcExists.contains r.path then
        EnsureResult.httpError 404 "File not found on disk" st eff₀
      else
        let st :=
          { st with
            hlsDirs :=
              if st.hlsDirs.contains file_id then st.hlsDirs
              else file_id :: st.hlsDirs }
        let eff := { eff₀ with mkdirCalled := true }
        match dictGet st.playlistMTime file_id with
        | some m =>
            if st.now - m < 10 then EnsureResult.ok (hlsUrl file_id) st eff
            else ensureLaunch st file_id eff
        | none => ensureLaunch st file_id eff

/-- Result of `stop_stream`: the JSON body is always `{stopped: true}`. -/
structure StopResult where
  stopped : Bool
  st : SysState
deriving Repr, DecidableEq

/-- `stop_stream`: terminate and drop any tracked process for the id
(`PROCS.pop(file_id, None)`), then best-effort remove the output
directory if it exists: `shutil.rmtree(out_dir, ignore_errors=True)`
swallows deletion failures, so on a failed removal (`rmtreeOk = false`)
the directory survives while the call still reports success. -/
def stop_stream (st : SysState) (file_id : String) : StopResult :=
  let st := { st with procs := dictPop st.procs file_id }
  let st :=
    if st.hlsDirs.contains file_id then
      if st.rmtreeOk then
        { st with
          hlsDirs := st.hlsDirs.filter (fun d => d ≠ file_id)
          playlistMTime := dictPop st.playlistMTime file_id }
      else st
    else st
  { stopped := true, st := st }

/-! ### Concrete fixtures (used to instantiate the theorems below) -/

/-- The module-level initial value of `SCAN_STATUS`. -/
def SCAN_STATUS_init (mediaRoot : String) : ScanStatus :=
  { state := "idle", started_at := none, finished_at := none
    duration_s := none, media_root := mediaRoot
    scanned_paths := 0, file_candidates := 0, accepted_media := 0
    indexed := 0, ffprobe_ok := 0, ffprobe_failed := 0
    last_path := none, last_error := none, codec_counts := [] }

/-- A probed h264 descriptor. -/
def wInfo : ProbeInfo :=
  { codec := some "h264", profile := some "High", pix_fmt := some "yuv420p"
    width := some 1920, height := some 1080, r_frame_rate := some "24/1" }

/-- An accepted entry whose probe succeeds. -/
def wMovie : FsEntry :=
  { path := "/media/movie.mp4", name := "movie.mp4", isFile := true
    suffix := ".mp4", size := 10, mtime := 20, probe := Except.ok wInfo }

/-- An accepted entry whose probe fails. -/
def wClip : FsEntry :=
  { path := "/media/clip.mkv", name := "clip.mkv", isFile := true
    suffix := ".mkv", size := 11, mtime := 21, probe := Except.error "boom" }

/-- A scan environment with a constant digest function, so the two
distinct entries collide on one identifier (last-write-wins case). -/
def wEnvCollide : ScanEnv :=
  { rootExists := true, mediaRoot := "/media"
    entries := [wMovie, wClip]
    hash := fun _ => "aaaabbbbccccdddd", tStart := 100, tFinish := 105 }

/-- A scan environment with one entry. -/
def wEnvOne : ScanEnv :=
  { rootExists := true, mediaRoot := "/media"
    entries := [wClip]
    hash := fun s => s, tStart := 100, tFinish := 105 }

/-- A scan environment whose root is missing. -/
def wEnvNoRoot : ScanEnv :=
  { rootExists := false, mediaRoot := "/media"
    entries := [], hash := fun s => s, tStart := 100, tFinish := 105 }

/-- A previous status with nonzero counters, as left by an earlier scan. -/
def wPrevBusy : ScanStatus :=
  { state := "done", started_at := some 1, finished_at := some 2
    duration_s := some 1, media_root := "/media"
    scanned_paths := 7, file_candidates := 5, accepted_media := 3
    indexed := 3, ffprobe_ok := 2, ffprobe_failed := 1
    last_path := some "/media/x", last_error := none, codec_counts := [] }

/-- The index record resolved for id "vid1" in the session fixtures. -/
def wRec : MediaRecord :=
  { id := "vid1", path := "/media/movie.mp4", name := "movie.mp4"
    codec := some "h264", profile := none, pix_fmt := none
    width := none, height := none, r_frame_rate := none }

/-- Session state with a playlist modified 3 seconds ago. -/
def wStFresh : SysState :=
  { files := [("vid1", wRec)], procs := []
    srcExists := ["/media/movie.mp4"], hlsDirs := ["vid1"]
    playlistMTime := [("vid1", 95)], now := 98
    spawnResult := some { pid := 7, alive := true }, rmtreeOk := true }

/-- Session state with no playlist and no tracked process; a spawn
would succeed and yield a live process. -/
def wStCold : SysState :=
  { files := [("vid1", wRec)], procs := []
    srcExists := ["/media/movie.mp4"], hlsDirs := []
    playlistMTime := [], now := 98
    spawnResult := some { pid := 7, alive := true }, rmtreeOk := true }

/-- Session state with a stale dead tracked process and a failing spawn. -/
def wStDead : SysState :=
  { files := [("vid1", wRec)]
    procs := [("vid1", { pid := 41, alive := false })]
    srcExists := ["/media/movie.mp4"], hlsDirs := ["vid1"]
    playlistMTime := [], now := 98, spawnResult := none, rmtreeOk := true }

/-- Session state with an empty index. -/
def wStEmpty : SysState :=
  { files := [], procs := [], srcExists := [], hlsDirs := []
    playlistMTime := [], now := 98, spawnResult := none, rmtreeOk := true }

/-- Session state whose indexed source path no longer exists on disk. -/
def wStGone : SysState :=
  { files := [("vid1", wRec)], procs := [], srcExists := [], hlsDirs := []
    playlistMTime := [], now := 98, spawnResult := none, rmtreeOk := true }

/-- Session state whose output directory exists but whose recursive
deletion fails (the failure is swallowed by `ignore_errors=True`). -/
def wStStuck : SysState :=
  { files := [("vid1", wRec)], procs := []
    srcExists := ["/media/movie.mp4"], hlsDirs := ["vid1"]
    playlistMTime := [("vid1", 50)], now := 98, spawnResult := none
    rmtreeOk := false }

/-! ### Dictionary lemmas -/

theorem dictGet_dictInsert {β : Type} (l : List (String × β)) (k k' : String)
    (v : β) :
    dictGet (dictInsert l k v) k' = if k = k' then some v else dictGet l k' := by
  induction l with
  | nil => simp [dictInsert, dictGet]
  | cons hd tl ih =>
    obtain ⟨k₁, v₁⟩ := hd
    simp only [dictInsert]
    by_cases h₁ : k₁ = k
    · subst h₁
      simp only [if_pos rfl, dictGet]
      by_cases h₂ : k₁ = k'
      · subst h₂; simp [dictGet]
      · simp [dictGet, h₂]
    · simp only [if_neg h₁, dictGet]
      by_cases h₂ : k₁ = k'
      · subst h₂
        have : ¬ k = k₁ := fun h => h₁ h.symm
        simp [this]
      · simp [h₂, ih]

theorem dictKeys_dictInsert {β : Type} (l : List (String × β)) (k : String)
    (v : β) :
    dictKeys (dictInsert l k v) =
      if k ∈ dictKeys l then dictKeys l else dictKeys l ++ [k] := by
  induction l with
  | nil => simp [dictInsert, dictKeys]
  | cons hd tl ih =>
    obtain ⟨k₁, v₁⟩ := hd
    simp only [dictInsert]
    by_cases h₁ : k₁ = k
    · subst h₁; simp [dictKeys]
    · have h₂ : ¬ k = k₁ := fun h => h₁ h.symm
      simp only [if_neg h₁, dictKeys, List.map_cons] at *
      rw [ih]
      by_cases h₃ : k ∈ List.map Prod.fst tl
      · simp [h₃, List.mem_cons, h₂]
      · simp [h₃, List.mem_cons, h₂]

theorem nodup_dictKeys_dictInsert {β : Type} {l : List (String × β)}
    (nd : (dictKeys l).Nodup) (k : String) (v : β) :
    (dictKeys (dictInsert l k v)).Nodup := by
  rw [dictKeys_dictInsert]
  by_cases h : k ∈ dictKeys l
  · simpa [h] using nd
  · simp only [if_neg h]
    simpa [List.nodup_append, h] using nd

theorem dictGet_eq_some_iff {β : Type} {l : List (String × β)}
    (nd : (dictKeys l).Nodup) {k : String} {v : β} :
    dictGet l k = some v ↔ (k, v) ∈ l := by
  induction l with
  | nil => simp [dictGet]
  | cons hd tl ih =>
    obtain ⟨k₁, v₁⟩ := hd
    simp only [dictKeys, List.map_cons, List.nodup_cons] at nd
    simp only [dictGet, List.mem_cons, Prod.mk.injEq]
    split
    next h₁ =>
      subst h₁
      constructor
      · intro h
        exact Or.inl ⟨rfl, (Option.some_inj.mp h).symm⟩
      · rintro (⟨-, rfl⟩ | hmem)
        · rfl
        · exact absurd (List.mem_map_of_mem Prod.fst hmem) nd.1
    next h₁ =>
      rw [ih nd.2]
      constructor
      · exact Or.inr
      · rintro (⟨h, -⟩ | hmem)
        · exact absurd h.symm h₁
        · exact hmem

theorem dictGet_eq_none_iff {β : Type} (l : List (String × β)) (k : String) :
    dictGet l k = none ↔ k ∉ dictKeys l := by
  induction l with
  | nil => simp [dictGet, dictKeys]
  | cons hd tl ih =>
    obtain ⟨k₁, v₁⟩ := hd
    by_cases h₁ : k₁ = k
    · subst h₁; simp [dictGet, dictKeys]
    · have : ¬ k = k₁ := fun h => h₁ h.symm
      simp [dictGet, dictKeys, h₁, this, ih, dictKeys]

theorem nodup_dictKeys_of_perm {β : Type} {l₁ l₂ : List (String × β)}
    (p : l₁.Perm l₂) (nd : (dictKeys l₁).Nodup) : (dictKeys l₂).Nodup :=
  ((p.map Prod.fst).nodup_iff).mp nd

theorem dictGet_perm {β : Type} {l₁ l₂ : List (String × β)}
    (nd : (dictKeys l₁).Nodup) (p : l₁.Perm l₂) (k : String) :
    dictGet l₁ k = dictGet l₂ k := by
  have nd₂ : (dictKeys l₂).Nodup := nodup_dictKeys_of_perm p nd
  cases h : dictGet l₁ k with
  | some v =>
    have : (k, v) ∈ l₂ := p.mem_iff.mp ((dictGet_eq_some_iff nd).mp h)
    exact ((dictGet_eq_some_iff nd₂).mpr this).symm
  | none =>
    have : k ∉ dictKeys l₂ := by
      intro hmem
      exact (dictGet_eq_none_iff l₁ k).mp h
        (((p.map Prod.fst).mem_iff).mpr hmem)
    exact ((dictGet_eq_none_iff l₂ k).mpr this).symm

theorem dictGet_dictPop {β : Type} (l : List (String × β)) (k : String) :
    dictGet (dictPop l k) k = none := by
  induction l with
  | nil => simp [dictPop, dictGet]
  | cons hd tl ih =>
    obtain ⟨k₁, v₁⟩ := hd
    by_cases h₁ : k₁ = k
    · subst h₁
      simpa [dictPop, List.filter_cons] using ih
    · simpa [dictPop, List.filter_cons, h₁, dictGet] using ih

theorem dictPop_of_none {β : Type} {l : List (String × β)} {k : String}
    (h : dictGet l k = none) : dictPop l k = l := by
  induction l with
  | nil => rfl
  | cons hd tl ih =>
    obtain ⟨k₁, v₁⟩ := hd
    simp only [dictGet] at h
    by_cases h₁ : k₁ = k
    · simp [h₁] at h
    · simp only [if_neg h₁] at h
      simpa [dictPop, List.filter_cons, h₁] using ih h

theorem contains_filter_ne (l : List String) (k : String) :
    (l.filter (fun d => d ≠ k)).contains k = false := by
  rw [Bool.eq_false_iff]
  intro hcon
  have hmem : k ∈ l.filter (fun d => d ≠ k) := by
    simpa using List.elem_iff.mp hcon
  have h₂ := (List.mem_filter.mp hmem).2
  simp at h₂

theorem dictInsert_of_none {β : Type} {l : List (String × β)} {k : String}
    (h : dictGet l k = none) (v : β) : dictInsert l k v = l ++ [(k, v)] := by
  induction l with
  | nil => rfl
  | cons hd tl ih =>
    obtain ⟨k₁, v₁⟩ := hd
    simp only [dictGet] at h
    by_cases h₁ : k₁ = k
    · simp [h₁] at h
    · simp only [if_neg h₁] at h
      simp [dictInsert, h₁, ih h]

theorem countKey_eq_zero {β : Type} {l : List (String × β)} {k : String}
    (h : dictGet l k = none) : countKey l k = 0 := by
  induction l with
  | nil => rfl
  | cons hd tl ih =>
    obtain ⟨k₁, v₁⟩ := hd
    simp only [dictGet] at h
    by_cases h₁ : k₁ = k
    · simp [h₁] at h
    · simp only [if_neg h₁] at h
      simpa [countKey, List.filter_cons, h₁] using ih h

theorem countKey_dictInsert_of_none {β : Type} {l : List (String × β)}
    {k : String} (h : dictGet l k = none) (v : β) :
    countKey (dictInsert l k v) k = 1 := by
  rw [dictInsert_of_none h]
  have h₀ : countKey l k = 0 := countKey_eq_zero h
  simp only [countKey, List.filter_append] at *
  simp [h₀, List.length_append]

/-! ### Order lemmas for the sort key -/

theorem keyLE_total (a b : String × MediaRecord) : keyLE a b || keyLE b a := by
  simp only [keyLE, Bool.or_eq_true, Bool.and_eq_true, decide_eq_true_eq]
  rcases lt_trichotomy (sortKey a).1 (sortKey b).1 with h | h | h
  · exact Or.inl (Or.inl h)
  · rcases le_total (sortKey a).2 (sortKey b).2 with h₂ | h₂
    · exact Or.inl (Or.inr ⟨h, h₂⟩)
    · exact Or.inr (Or.inr ⟨h.symm, h₂⟩)
  · exact Or.inr (Or.inl h)

theorem keyLE_trans (a b c : String × MediaRecord) :
    keyLE a b → keyLE b c → keyLE a c := by
  simp only [keyLE, Bool.or_eq_true, Bool.and_eq_true, decide_eq_true_eq]
  rintro (h₁ | ⟨h₁, h₁'⟩) (h₂ | ⟨h₂, h₂'⟩)
  · exact Or.inl (h₁.trans h₂)
  · exact Or.inl (h₂ ▸ h₁)
  · exact Or.inl (h₁ ▸ h₂)
  · exact Or.inr ⟨h₁.trans h₂, h₁'.trans h₂'⟩

/-- `sortIndex` produces a permutation of its input. -/
theorem sortIndex_perm (l : Index) : (sortIndex l).Perm l :=
  List.mergeSort_perm l keyLE

/-- `sortIndex` output is sorted by the Python sort key. -/
theorem sortIndex_sorted (l : Index) :
    (sortIndex l).Pairwise (fun a b => keyLE a b = true) :=
  List.sorted_mergeSort keyLE_trans keyLE_total l

/-- Sorting an already sorted index is a no-op. -/
theorem sortIndex_of_sorted {l : Index}
    (h : l.Pairwise (fun a b => keyLE a b = true)) : sortIndex l = l :=
  List.mergeSort_of_sorted h

/-! ### Scan traversal lemmas -/

theorem contains_cons_self (l : List String) (k : String) :
    (k :: l).contains k = true := by
  simp [List.contains_cons]

theorem scanStep_found (env : ScanEnv) (acc : ScanAcc) (e : FsEntry) :
    (scanStep env acc e).found =
      if accepted e then
        dictInsert acc.found (stable_id_for_path env e) (mkRecord env e)
      else acc.found := by
  by_cases hf : e.isFile = true
  · by_cases hc : SCAN_EXTS.contains (lowerString e.suffix) = true
    · have hmem : (lowerString e.suffix) ∈ SCAN_EXTS := by simpa using hc
      cases hp : e.probe <;> simp [scanStep, accepted, hf, hc, hp, hmem]
    · have hmem : lowerString e.suffix ∉ SCAN_EXTS := by simpa using hc
      simp [scanStep, accepted, hf, hc, hmem]
  · simp [scanStep, accepted, hf]

theorem foldl_scanStep_found (env : ScanEnv) (es : List FsEntry)
    (acc : ScanAcc) (i : String) :
    dictGet (es.foldl (scanStep env) acc).found i =
      match lastAcceptedWith env es i with
      | some e => some (mkRecord env e)
      | none => dictGet acc.found i := by
  induction es generalizing acc with
  | nil => simp [lastAcceptedWith]
  | cons a es ih =>
    simp only [List.foldl_cons]
    rw [ih]
    have hrw : lastAcceptedWith env (a :: es) i =
        (lastAcceptedWith env es i).or
          (if matchesId env i a then some a else none) := by
      simp only [lastAcceptedWith, List.reverse_cons, List.find?_append]
      congr 1
      cases hm : matchesId env i a <;> simp [List.find?, hm]
    rw [hrw]
    cases hl : lastAcceptedWith env es i with
    | some e => simp
    | none =>
      simp only [Option.none_or]
      rw [scanStep_found]
      by_cases ha : accepted a = true
      · rw [if_pos ha, dictGet_dictInsert]
        by_cases hid : stable_id_for_path env a = i
        · simp [matchesId, ha, hid]
        · simp [matchesId, ha, hid]
      · simp [matchesId, ha]

theorem nodup_scanFound (env : ScanEnv) : (dictKeys (scanFound env)).Nodup := by
  suffices h : ∀ (es : List FsEntry) (acc : ScanAcc),
      (dictKeys acc.found).Nodup →
      (dictKeys ((es.foldl (scanStep env) acc)).found).Nodup by
    exact h env.entries initAcc (by simp [initAcc, dictKeys])
  intro es
  induction es with
  | nil => intro acc h; simpa using h
  | cons a es ih =>
    intro acc h
    simp only [List.foldl_cons]
    apply ih
    rw [scanStep_found]
    by_cases ha : accepted a = true
    · rw [if_pos ha]
      exact nodup_dictKeys_dictInsert h _ _
    · rwa [if_neg ha]

theorem nodup_scanIndex (env : ScanEnv) : (dictKeys (scanIndex env)).Nodup :=
  nodup_dictKeys_of_perm (sortIndex_perm (scanFound env)).symm
    (nodup_scanFound env)

theorem dictGet_scanIndex (env : ScanEnv) (i : String) :
    dictGet (scanIndex env) i = dictGet (scanFound env) i :=
  (dictGet_perm (nodup_scanFound env) (sortIndex_perm (scanFound env)).symm
    i).symm

theorem dictGet_scanFound (env : ScanEnv) (i : String) :
    dictGet (scanFound env) i =
      match lastAcceptedWith env env.entries i with
      | some e => some (mkRecord env e)
      | none => none := by
  have h := foldl_scanStep_found env env.entries initAcc i
  simp only [scanFound, scanAccOf]
  rw [h]
  cases lastAcceptedWith env env.entries i <;> simp [initAcc, dictGet]

/-- Stability of `sortIndex`: the subsequence of entries with any fixed
sort key is unchanged by the sort (ties keep discovery order). -/
theorem sortIndex_filter_key (l : Index) (key : String × String) :
    (sortIndex l).filter (fun kv => sortKey kv = key) =
      l.filter (fun kv => sortKey kv = key) := by
  have hkey : ∀ kv ∈ l.filter (fun kv => sortKey kv = key), sortKey kv = key :=
    fun kv hm => by simpa using (List.mem_filter.mp hm).2
  have hpair : (l.filter (fun kv => sortKey kv = key)).Pairwise
      (fun a b => keyLE a b = true) := by
    apply List.pairwise_of_forall_mem_list
    intro a ha b hb
    have h₁ := hkey a ha
    have h₂ := hkey b hb
    simp [keyLE, h₁, h₂]
  have hsub : List.Sublist (l.filter (fun kv => sortKey kv = key)) l :=
    List.filter_sublist l
  have hsub₂ : List.Sublist (l.filter (fun kv => sortKey kv = key))
      (sortIndex l) :=
    List.sublist_mergeSort keyLE_trans keyLE_total hpair hsub
  have hsub₃ : List.Sublist (l.filter (fun kv => sortKey kv = key))
      ((sortIndex l).filter (fun kv => sortKey kv = key)) := by
    have h₁ := hsub₂.filter (fun kv => decide (sortKey kv = key))
    rwa [List.filter_eq_self.mpr (fun kv hm => by simpa using hkey kv hm)] at h₁
  have hperm : ((sortIndex l).filter (fun kv => sortKey kv = key)).Perm
      (l.filter (fun kv => sortKey kv = key)) :=
    (sortIndex_perm l).filter (fun kv => decide (sortKey kv = key))
  exact ((hsub₃.eq_of_length hperm.length_eq.symm)).symm

/-! ### Branch lemmas for `scan_files` -/

theorem scan_files_filesWrites_of_root (env : ScanEnv) (prev : ScanStatus)
    (h : env.rootExists = true) :
    (scan_files env prev).filesWrites = [scanIndex env] := by
  simp [scan_files, h, scanIndex, scanFound, scanAccOf]

theorem scan_files_error_of_no_root (env : ScanEnv) (prev : ScanStatus)
    (h : env.rootExists = false) :
    (scan_files env prev).filesWrites = [] ∧
    (scan_files env prev).scanError =
      some ("MEDIA_ROOT does not exist: " ++ env.mediaRoot) ∧
    (scan_files env prev).status =
      { initStatus env prev with
        state := "error"
        finished_at := some env.tFinish
        duration_s := some (env.tFinish - env.tStart)
        last_error :=
          some ("MEDIA_ROOT does not exist: " ++ env.mediaRoot) } := by
  refine ⟨?_, ?_, ?_⟩ <;> simp [scan_files, h]

/-! ### Claim theorems -/

/-- C1: for every scan over an existing root, each accepted file is
indexed: when `e₀` is the last-visited accepted entry with identifier
`i`, the published index maps `i` to exactly the record built from `e₀`
(last-write-wins on identifier collisions, a probe failure never drops
the file), the index holds exactly one record per identifier (its keys
are duplicate-free), and a failed probe yields codec "unknown". -/
theorem scan_indexes_every_accepted_file
    (env : ScanEnv) (prev : ScanStatus) (prevFiles : Index)
    (hroot : env.rootExists = true)
    (i : String) (e₀ : FsEntry)
    (hlast : lastAcceptedWith env env.entries i = some e₀) :
    dictGet (finalFiles (scan_files env prev) prevFiles) i
        = some (mkRecord env e₀) ∧
    (dictKeys (finalFiles (scan_files env prev) prevFiles)).Nodup ∧
    (∀ msg, e₀.probe = Except.error msg →
      (mkRecord env e₀).codec = some "unknown") := by
  have hw : finalFiles (scan_files env prev) prevFiles = scanIndex env := by
    simp [finalFiles, scan_files_filesWrites_of_root env prev hroot]
  refine ⟨?_, ?_, ?_⟩
  · rw [hw, dictGet_scanIndex, dictGet_scanFound, hlast]
  · rw [hw]; exact nodup_scanIndex env
  · intro msg hmsg
    simp [mkRecord, hmsg]

theorem scan_indexes_every_accepted_file_witness :
    wEnvCollide.rootExists = true ∧
    lastAcceptedWith wEnvCollide wEnvCollide.entries "aaaabbbbcccc"
        = some wClip ∧
    (dictGet (finalFiles (scan_files wEnvCollide (SCAN_STATUS_init "/media"))
          []) "aaaabbbbcccc" = some (mkRecord wEnvCollide wClip) ∧
      (dictKeys (finalFiles (scan_files wEnvCollide
          (SCAN_STATUS_init "/media")) [])).Nodup ∧
      (∀ msg, wClip.probe = Except.error msg →
        (mkRecord wEnvCollide wClip).codec = some "unknown")) :=
  ⟨rfl, rfl,
    scan_indexes_every_accepted_file wEnvCollide (SCAN_STATUS_init "/media")
      [] rfl "aaaabbbbcccc" wClip rfl⟩

/-- C3: a scan writes the process-wide index at most once; over an
existing root the single write happens after the traversal and carries
the fully accumulated, sorted map; over a missing root nothing is
written and the previous index is kept. -/
theorem scan_publishes_index_once
    (env : ScanEnv) (prev : ScanStatus) (prevFiles : Index) :
    (scan_files env prev).filesWrites.length ≤ 1 ∧
    (env.rootExists = true →
      (scan_files env prev).filesWrites = [sortIndex (scanFound env)]) ∧
    (env.rootExists = false →
      (scan_files env prev).filesWrites = [] ∧
      finalFiles (scan_files env prev) prevFiles = prevFiles) := by
  refine ⟨?_, ?_, ?_⟩
  · by_cases h : env.rootExists = true
    · rw [scan_files_filesWrites_of_root env prev h]; simp
    · have h' : env.rootExists = false := by simpa using h
      rw [(scan_files_error_of_no_root env prev h').1]; simp
  · intro h
    rw [scan_files_filesWrites_of_root env prev h]
    rfl
  · intro h
    refine ⟨(scan_files_error_of_no_root env prev h).1, ?_⟩
    simp [finalFiles, (scan_files_error_of_no_root env prev h).1]

theorem scan_publishes_index_once_witness :
    wEnvOne.rootExists = true ∧
    (scan_files wEnvOne (SCAN_STATUS_init "/media")).filesWrites
        = [sortIndex (scanFound wEnvOne)] :=
  ⟨rfl,
    (scan_publishes_index_once wEnvOne (SCAN_STATUS_init "/media") []).2.1 rfl⟩

/-- C6: a scan over a missing root fails with the root-missing error,
ends with state "error" and `last_error` recording the missing root, and
leaves the previously published index unchanged. -/
theorem scan_root_missing_keeps_index
    (env : ScanEnv) (prev : ScanStatus) (prevFiles : Index)
    (h : env.rootExists = false) :
    (scan_files env prev).status.state = "error" ∧
    (scan_files env prev).status.last_error =
      some ("MEDIA_ROOT does not exist: " ++ env.mediaRoot) ∧
    (scan_files env prev).scanError =
      some ("MEDIA_ROOT does not exist: " ++ env.mediaRoot) ∧
    (scan_files env prev).filesWrites = [] ∧
    finalFiles (scan_files env prev) prevFiles = prevFiles := by
  obtain ⟨h₁, h₂, h₃⟩ := scan_files_error_of_no_root env prev h
  exact ⟨by rw [h₃], by rw [h₃], h₂, h₁, by simp [finalFiles, h₁]⟩

theorem scan_root_missing_keeps_index_witness :
    wEnvNoRoot.rootExists = false ∧
    ((scan_files wEnvNoRoot wPrevBusy).status.state = "error" ∧
      (scan_files wEnvNoRoot wPrevBusy).status.last_error =
        some ("MEDIA_ROOT does not exist: " ++ wEnvNoRoot.mediaRoot) ∧
      (scan_files wEnvNoRoot wPrevBusy).scanError =
        some ("MEDIA_ROOT does not exist: " ++ wEnvNoRoot.mediaRoot) ∧
      (scan_files wEnvNoRoot wPrevBusy).filesWrites = [] ∧
      finalFiles (scan_files wEnvNoRoot wPrevBusy) [("k", wRec)]
          = [("k", wRec)]) :=
  ⟨rfl, scan_root_missing_keeps_index wEnvNoRoot wPrevBusy [("k", wRec)] rfl⟩

/-- C8: the index produced by a successful scan is sorted by
`(codec-or-empty, name.lowercase)` (a total preorder), re-sorting it is
a no-op, and ties keep the original discovery order (the subsequence of
entries with any fixed sort key equals the corresponding subsequence of
the accumulation map, which is in discovery order). -/
theorem scan_index_sorted_and_idempotent
    (env : ScanEnv) (prev : ScanStatus) (prevFiles : Index)
    (h : env.rootExists = true) :
    (finalFiles (scan_files env prev) prevFiles).Pairwise
      (fun a b => keyLE a b = true) ∧
    sortIndex (finalFiles (scan_files env prev) prevFiles) =
      finalFiles (scan_files env prev) prevFiles ∧
    (∀ key : String × String,
      (finalFiles (scan_files env prev) prevFiles).filter
          (fun kv => sortKey kv = key) =
        (scanFound env).filter (fun kv => sortKey kv = key)) := by
  have hw : finalFiles (scan_files env prev) prevFiles = scanIndex env := by
    simp [finalFiles, scan_files_filesWrites_of_root env prev h]
  rw [hw]
  exact ⟨sortIndex_sorted (scanFound env),
    sortIndex_of_sorted (sortIndex_sorted (scanFound env)),
    fun key => sortIndex_filter_key (scanFound env) key⟩

theorem scan_index_sorted_and_idempotent_witness :
    wEnvCollide.rootExists = true ∧
    ((finalFiles (scan_files wEnvCollide (SCAN_STATUS_init "/media"))
        []).Pairwise (fun a b => keyLE a b = true) ∧
      sortIndex (finalFiles (scan_files wEnvCollide
          (SCAN_STATUS_init "/media")) []) =
        finalFiles (scan_files wEnvCollide (SCAN_STATUS_init "/media")) [] ∧
      (∀ key : String × String,
        (finalFiles (scan_files wEnvCollide
            (SCAN_STATUS_init "/media")) []).filter
            (fun kv => sortKey kv = key) =
          (scanFound wEnvCollide).filter (fun kv => sortKey kv = key))) :=
  ⟨rfl,
    scan_index_sorted_and_idempotent wEnvCollide (SCAN_STATUS_init "/media")
      [] rfl⟩

/-- C10 counterexample: the claim says a failed scan over a missing root
does not zero the counters from the previous scan; in the code
`scan_files` resets `SCAN_STATUS` (line 148) before validating
`MEDIA_ROOT` (line 171), so the counters are zeroed: starting from a
previous status with `scanned_paths = 7`, the failed invocation leaves
`scanned_paths = 0`. -/
theorem scan_validate_order_counterexample :
    wPrevBusy.scanned_paths = 7 ∧
    (scan_files wEnvNoRoot wPrevBusy).scanError.isSome = true ∧
    (scan_files wEnvNoRoot wPrevBusy).status.scanned_paths = 0 ∧
    (scan_files wEnvNoRoot wPrevBusy).status.ffprobe_ok = 0 :=
  ⟨rfl, rfl, rfl, rfl⟩

/-- C10 (amended): `scan_files` resets `ScanStatus` to a fresh scanning
state BEFORE validating that the root exists, so a scan invoked on a
nonexistent root zeroes all counters and sets fresh timestamps, and then
transitions to "error". -/
theorem scan_resets_status_before_validation
    (env : ScanEnv) (prev : ScanStatus) (h : env.rootExists = false) :
    (scan_files env prev).scanError.isSome = true ∧
    (scan_files env prev).status.scanned_paths = 0 ∧
    (scan_files env prev).status.file_candidates = 0 ∧
    (scan_files env prev).status.accepted_media = 0 ∧
    (scan_files env prev).status.indexed = 0 ∧
    (scan_files env prev).status.ffprobe_ok = 0 ∧
    (scan_files env prev).status.ffprobe_failed = 0 ∧
    (scan_files env prev).status.started_at = some env.tStart ∧
    (scan_files env prev).status.state = "error" := by
  obtain ⟨-, h₂, h₃⟩ := scan_files_error_of_no_root env prev h
  refine ⟨?_, ?_, ?_, ?_, ?_, ?_, ?_, ?_, ?_⟩ <;>
    simp [h₂, h₃, initStatus]

theorem scan_resets_status_before_validation_witness :
    wEnvNoRoot.rootExists = false ∧
    ((scan_files wEnvNoRoot wPrevBusy).scanError.isSome = true ∧
      (scan_files wEnvNoRoot wPrevBusy).status.scanned_paths = 0 ∧
      (scan_files wEnvNoRoot wPrevBusy).status.file_candidates = 0 ∧
      (scan_files wEnvNoRoot wPrevBusy).status.accepted_media = 0 ∧
      (scan_files wEnvNoRoot wPrevBusy).status.indexed = 0 ∧
      (scan_files wEnvNoRoot wPrevBusy).status.ffprobe_ok = 0 ∧
      (scan_files wEnvNoRoot wPrevBusy).status.ffprobe_failed = 0 ∧
      (scan_files wEnvNoRoot wPrevBusy).status.started_at =
        some wEnvNoRoot.tStart ∧
      (scan_files wEnvNoRoot wPrevBusy).status.state = "error") :=
  ⟨rfl, scan_resets_status_before_validation wEnvNoRoot wPrevBusy rfl⟩

/-- C4: when the id is indexed, the source exists, the playlist exists
and its mtime is less than 10 seconds old, `ensure_hls_running` returns
the existing stream URL immediately: the `PROCS` table is neither read
nor written (`procsAccessed = false`), no encoder is spawned
(`spawnAttempts = 0`), and the process table is unchanged. -/
theorem startSession_freshness_short_circuit
    (st : SysState) (file_id : String) (r : MediaRecord) (m : Int)
    (h₁ : dictGet st.files file_id = some r)
    (h₂ : st.srcExists.contains r.path = true)
    (h₃ : dictGet st.playlistMTime file_id = some m)
    (h₄ : st.now - m < 10) :
    ∃ st₁ : SysState,
      ensure_hls_running st file_id =
        EnsureResult.ok (hlsUrl file_id) st₁
          { mkdirCalled := true, procsAccessed := false, cleaned := false
            spawnAttempts := 0 } ∧
      st₁.procs = st.procs ∧ st₁.files = st.files := by
  have h₂m : r.path ∈ st.srcExists := by simpa using h₂
  refine ⟨{ st with hlsDirs := if st.hlsDirs.contains file_id then st.hlsDirs
      else file_id :: st.hlsDirs }, ?_, rfl, rfl⟩
  simp [ensure_hls_running, h₁, h₂m, h₃, h₄]

theorem startSession_freshness_short_circuit_witness :
    dictGet wStFresh.files "vid1" = some wRec ∧
    wStFresh.srcExists.contains wRec.path = true ∧
    dictGet wStFresh.playlistMTime "vid1" = some 95 ∧
    wStFresh.now - 95 < 10 ∧
    (∃ st₁ : SysState,
      ensure_hls_running wStFresh "vid1" =
        EnsureResult.ok (hlsUrl "vid1") st₁
          { mkdirCalled := true, procsAccessed := false, cleaned := false
            spawnAttempts := 0 } ∧
      st₁.procs = wStFresh.procs ∧ st₁.files = wStFresh.files) :=
  ⟨rfl, rfl, rfl, by decide,
    startSession_freshness_short_circuit wStFresh "vid1" wRec 95 rfl rfl rfl
      (by decide)⟩

/-- C5: `ensure_hls_running` raises 404 "Unknown file id" when the id is
absent from the index, and 404 "File not found on disk" when the indexed
source path no longer exists; in both cases the returned state is the
input state unchanged (so no output directory is created and the session
table is untouched) and no effect has run (`mkdirCalled = false`). -/
theorem startSession_unknown_and_missing_404
    (st : SysState) (file_id : String) :
    (dictGet st.files file_id = none →
      ensure_hls_running st file_id =
        EnsureResult.httpError 404 "Unknown file id" st
          { mkdirCalled := false, procsAccessed := false, cleaned := false
            spawnAttempts := 0 }) ∧
    (∀ r, dictGet st.files file_id = some r →
      st.srcExists.contains r.path = false →
      ensure_hls_running st file_id =
        EnsureResult.httpError 404 "File not found on disk" st
          { mkdirCalled := false, procsAccessed := false, cleaned := false
            spawnAttempts := 0 }) := by
  constructor
  · intro h
    simp [ensure_hls_running, h]
  · intro r h₁ h₂
    have h₂m : r.path ∉ st.srcExists := by simpa using h₂
    simp [ensure_hls_running, h₁, h₂m]

theorem startSession_unknown_and_missing_404_witness :
    (dictGet wStEmpty.files "vid1" = none ∧
      ensure_hls_running wStEmpty "vid1" =
        EnsureResult.httpError 404 "Unknown file id" wStEmpty
          { mkdirCalled := false, procsAccessed := false, cleaned := false
            spawnAttempts := 0 }) ∧
    (dictGet wStGone.files "vid1" = some wRec ∧
      wStGone.srcExists.contains wRec.path = false ∧
      ensure_hls_running wStGone "vid1" =
        EnsureResult.httpError 404 "File not found on disk" wStGone
          { mkdirCalled := false, procsAccessed := false, cleaned := false
            spawnAttempts := 0 }) :=
  ⟨⟨rfl, (startSession_unknown_and_missing_404 wStEmpty "vid1").1 rfl⟩,
    ⟨rfl, rfl,
      (startSession_unknown_and_missing_404 wStGone "vid1").2 wRec rfl rfl⟩⟩

/-- In every branch of `stop_stream` the process table is
`PROCS.pop(file_id, None)` of the input table. -/
theorem stop_stream_procs (st : SysState) (file_id : String) :
    (stop_stream st file_id).st.procs = dictPop st.procs file_id := by
  simp only [stop_stream]
  split
  · split <;> rfl
  · rfl

/-- C7 counterexample: the claim says that after `stop_stream` returns,
the identifier's output directory no longer exists; but
`shutil.rmtree(out_dir, ignore_errors=True)` (app.py line 519) swallows
deletion failures, so when the recursive deletion fails the directory
survives while the call still reports `{stopped: true}`: from
`wStStuck` (directory present, deletion failing) the directory is still
there afterwards. -/
theorem stopSession_dir_removal_counterexample :
    (stop_stream wStStuck "vid1").stopped = true ∧
    (stop_stream wStStuck "vid1").st.hlsDirs.contains "vid1" = true :=
  ⟨rfl, rfl⟩

/-- C7 (amended): `stop_stream` always reports `{stopped: true}`;
afterwards no process is tracked for the id; when no process was
tracked the call is a no-op on the process table; and the removal of
the id's output directory is best-effort: it no longer exists after the
call whenever the recursive deletion succeeds (a failed deletion may
leave it behind, and the failure is never surfaced to the caller). -/
theorem stopSession_best_effort
    (st : SysState) (file_id : String) :
    (stop_stream st file_id).stopped = true ∧
    dictGet (stop_stream st file_id).st.procs file_id = none ∧
    (dictGet st.procs file_id = none →
      (stop_stream st file_id).st.procs = st.procs) ∧
    (st.rmtreeOk = true →
      (stop_stream st file_id).st.hlsDirs.contains file_id = false) := by
  refine ⟨rfl, ?_, ?_, ?_⟩
  · rw [stop_stream_procs]
    exact dictGet_dictPop st.procs file_id
  · intro h
    rw [stop_stream_procs, dictPop_of_none h]
  · intro hr
    simp only [stop_stream, hr]
    split
    next hc => exact contains_filter_ne st.hlsDirs file_id
    next hc => simpa using hc

theorem stopSession_best_effort_witness :
    (dictGet wStFresh.procs "vid1" = none ∧ wStFresh.rmtreeOk = true) ∧
    ((stop_stream wStFresh "vid1").stopped = true ∧
      dictGet (stop_stream wStFresh "vid1").st.procs "vid1" = none ∧
      (stop_stream wStFresh "vid1").st.procs = wStFresh.procs ∧
      (stop_stream wStFresh "vid1").st.hlsDirs.contains "vid1" = false) :=
  ⟨⟨rfl, rfl⟩,
    (stopSession_best_effort wStFresh "vid1").1,
    (stopSession_best_effort wStFresh "vid1").2.1,
    (stopSession_best_effort wStFresh "vid1").2.2.1 rfl,
    (stopSession_best_effort wStFresh "vid1").2.2.2 rfl⟩

/-- C2: two sequential `ensure_hls_running` calls for the same id (no
fresh playlist, no tracked process, spawn succeeding with a live
process) return the same stream URL; the first call spawns once, the
second spawns nothing and leaves the table unchanged, and afterwards the
table holds exactly one entry for the id.  Moreover any call made while
a healthy (live) tracked process exists returns the same URL without
spawning and leaves the process table unchanged. -/
theorem startSession_idempotent
    (st : SysState) (file_id : String) (r : MediaRecord) (p : ProcHandle)
    (h₁ : dictGet st.files file_id = some r)
    (h₂ : st.srcExists.contains r.path = true)
    (h₃ : ∀ m, dictGet st.playlistMTime file_id = some m →
      ¬ st.now - m < 10)
    (h₄ : dictGet st.procs file_id = none)
    (h₅ : st.spawnResult = some p)
    (h₆ : p.alive = true) :
    ∃ (st₁ : SysState) (eff₁ eff₂ : EnsureEff),
      ensure_hls_running st file_id =
        EnsureResult.ok (hlsUrl file_id) st₁ eff₁ ∧
      eff₁.spawnAttempts = 1 ∧
      dictGet st₁.procs file_id = some p ∧
      countKey st₁.procs file_id = 1 ∧
      ensure_hls_running st₁ file_id =
        EnsureResult.ok (hlsUrl file_id) st₁ eff₂ ∧
      eff₂.spawnAttempts = 0 ∧
      (∀ (t : SysState) (r' : MediaRecord) (q : ProcHandle),
        dictGet t.files file_id = some r' →
        t.srcExists.contains r'.path = true →
        dictGet t.procs file_id = some q → q.alive = true →
        ∃ (t' : SysState) (e' : EnsureEff),
          ensure_hls_running t file_id =
            EnsureResult.ok (hlsUrl file_id) t' e' ∧
          e'.spawnAttempts = 0 ∧ t'.procs = t.procs) := by
  have h₂m : r.path ∈ st.srcExists := by simpa using h₂
  refine ⟨{ st with
      hlsDirs := if st.hlsDirs.contains file_id then st.hlsDirs
        else file_id :: st.hlsDirs
      playlistMTime := dictPop st.playlistMTime file_id
      procs := dictInsert st.procs file_id p },
    { mkdirCalled := true, procsAccessed := true, cleaned := true
      spawnAttempts := 1 },
    { mkdirCalled := true, procsAccessed := true, cleaned := false
      spawnAttempts := 0 },
    ?_, rfl, ?_, ?_, ?_, rfl, ?_⟩
  · cases hpl : dictGet st.playlistMTime file_id with
    | none =>
      simp [ensure_hls_running, h₁, h₂m, hpl, ensureLaunch, h₄, launchNew, h₅]
    | some m =>
      have hm := h₃ m hpl
      simp [ensure_hls_running, h₁, h₂m, hpl, hm, ensureLaunch, h₄, launchNew,
        h₅]
  · rw [dictGet_dictInsert]
    simp
  · exact countKey_dictInsert_of_none h₄ p
  · have hcon : file_id ∈
        (if file_id ∈ st.hlsDirs then st.hlsDirs
          else file_id :: st.hlsDirs) := by
      by_cases hc : file_id ∈ st.hlsDirs
      · simp [hc]
      · simp [hc]
    simp [ensure_hls_running, h₁, h₂m, hcon, dictGet_dictPop, ensureLaunch,
      dictGet_dictInsert, h₆]
  · intro t r' q ht₁ ht₂ ht₃ ht₄
    have ht₂m : r'.path ∈ t.srcExists := by simpa using ht₂
    cases hpl : dictGet t.playlistMTime file_id with
    | some m =>
      by_cases hf : t.now - m < 10
      · refine ⟨{ t with hlsDirs := if t.hlsDirs.contains file_id
            then t.hlsDirs else file_id :: t.hlsDirs },
          { mkdirCalled := true, procsAccessed := false, cleaned := false
            spawnAttempts := 0 }, ?_, rfl, rfl⟩
        simp [ensure_hls_running, ht₁, ht₂m, hpl, hf]
      · refine ⟨{ t with hlsDirs := if t.hlsDirs.contains file_id
            then t.hlsDirs else file_id :: t.hlsDirs },
          { mkdirCalled := true, procsAccessed := true, cleaned := false
            spawnAttempts := 0 }, ?_, rfl, rfl⟩
        simp [ensure_hls_running, ht₁, ht₂m, hpl, hf, ensureLaunch, ht₃, ht₄]
    | none =>
      refine ⟨{ t with hlsDirs := if t.hlsDirs.contains file_id
          then t.hlsDirs else file_id :: t.hlsDirs },
        { mkdirCalled := true, procsAccessed := true, cleaned := false
          spawnAttempts := 0 }, ?_, rfl, rfl⟩
      simp [ensure_hls_running, ht₁, ht₂m, hpl, ensureLaunch, ht₃, ht₄]

theorem startSession_idempotent_witness :
    dictGet wStCold.files "vid1" = some wRec ∧
    wStCold.srcExists.contains wRec.path = true ∧
    dictGet wStCold.procs "vid1" = none ∧
    wStCold.spawnResult = some { pid := 7, alive := true } ∧
    (∃ (st₁ : SysState) (eff₁ eff₂ : EnsureEff),
      ensure_hls_running wStCold "vid1" =
        EnsureResult.ok (hlsUrl "vid1") st₁ eff₁ ∧
      eff₁.spawnAttempts = 1 ∧
      dictGet st₁.procs "vid1" = some { pid := 7, alive := true } ∧
      countKey st₁.procs "vid1" = 1 ∧
      ensure_hls_running st₁ "vid1" =
        EnsureResult.ok (hlsUrl "vid1") st₁ eff₂ ∧
      eff₂.spawnAttempts = 0 ∧
      (∀ (t : SysState) (r' : MediaRecord) (q : ProcHandle),
        dictGet t.files "vid1" = some r' →
        t.srcExists.contains r'.path = true →
        dictGet t.procs "vid1" = some q → q.alive = true →
        ∃ (t' : SysState) (e' : EnsureEff),
          ensure_hls_running t "vid1" =
            EnsureResult.ok (hlsUrl "vid1") t' e' ∧
          e'.spawnAttempts = 0 ∧ t'.procs = t.procs)) :=
  ⟨rfl, rfl, rfl, rfl,
    startSession_idempotent wStCold "vid1" wRec { pid := 7, alive := true }
      rfl rfl (fun m hm => by simp [dictGet] at hm) rfl rfl rfl⟩

/-- C9 counterexample: the claim says a failed spawn leaves no entry in
the session table for the identifier; but when a stale dead process is
already tracked (its encoder exited on its own, so `poll()` is not
`None`), the failed launch re-raises while the old entry stays: from
`wStDead` (dead tracked process, failing spawn) the call fails and the
table still maps "vid1" to the dead handle. -/
theorem startSession_launch_failure_counterexample :
    ensure_hls_running wStDead "vid1" =
      EnsureResult.spawnError wStDead
        { mkdirCalled := true, procsAccessed := true, cleaned := true
          spawnAttempts := 1 } ∧
    dictGet wStDead.procs "vid1" = some { pid := 41, alive := false } :=
  ⟨rfl, rfl⟩

/-- C9 (amended): a failed spawn propagates the failure and leaves the
session table exactly as it was — no entry is recorded by the failed
launch, so if the table had no entry for the identifier before the
call, it has none afterwards (but a pre-existing stale entry is
retained). -/
theorem startSession_launch_failure_amended
    (st : SysState) (file_id : String) (r : MediaRecord)
    (h₁ : dictGet st.files file_id = some r)
    (h₂ : st.srcExists.contains r.path = true)
    (h₃ : ∀ m, dictGet st.playlistMTime file_id = some m →
      ¬ st.now - m < 10)
    (h₄ : ∀ q, dictGet st.procs file_id = some q → q.alive = false)
    (h₅ : st.spawnResult = none) :
    ∃ (st' : SysState) (eff : EnsureEff),
      ensure_hls_running st file_id = EnsureResult.spawnError st' eff ∧
      st'.procs = st.procs ∧
      (dictGet st.procs file_id = none →
        dictGet st'.procs file_id = none) := by
  have h₂m : r.path ∈ st.srcExists := by simpa using h₂
  refine ⟨{ st with
      hlsDirs := if st.hlsDirs.contains file_id then st.hlsDirs
        else file_id :: st.hlsDirs
      playlistMTime := dictPop st.playlistMTime file_id },
    { mkdirCalled := true, procsAccessed := true, cleaned := true
      spawnAttempts := 1 }, ?_, rfl, fun h => h⟩
  cases hpr : dictGet st.procs file_id with
  | none =>
    cases hpl : dictGet st.playlistMTime file_id with
    | none =>
      simp [ensure_hls_running, h₁, h₂m, hpl, ensureLaunch, hpr, launchNew, h₅]
    | some m =>
      have hm := h₃ m hpl
      simp [ensure_hls_running, h₁, h₂m, hpl, hm, ensureLaunch, hpr,
        launchNew, h₅]
  | some q =>
    have hq := h₄ q hpr
    cases hpl : dictGet st.playlistMTime file_id with
    | none =>
      simp [ensure_hls_running, h₁, h₂m, hpl, ensureLaunch, hpr, hq,
        launchNew, h₅]
    | some m =>
      have hm := h₃ m hpl
      simp [ensure_hls_running, h₁, h₂m, hpl, hm, ensureLaunch, hpr, hq,
        launchNew, h₅]

theorem startSession_launch_failure_amended_witness :
    dictGet wStGone.files "vid1" = some wRec ∧
    wStGone.spawnResult = none ∧
    (∃ (st' : SysState) (eff : EnsureEff),
      ensure_hls_running { wStGone with
          srcExists := ["/media/movie.mp4"] } "vid1" =
        EnsureResult.spawnError st' eff ∧
      st'.procs = ({ wStGone with
          srcExists := ["/media/movie.mp4"] } : SysState).procs ∧
      (dictGet ({ wStGone with
          srcExists := ["/media/movie.mp4"] } : SysState).procs "vid1"
          = none →
        dictGet st'.procs "vid1" = none)) :=
  ⟨rfl, rfl,
    startSession_launch_failure_amended
      { wStGone with srcExists := ["/media/movie.mp4"] } "vid1" wRec rfl rfl
      (fun m hm => by simp [dictGet] at hm)
      (fun q hq => by simp [dictGet] at hq) rfl⟩

end NasStream
